import Mathlib

/-!
# Verification of the flatwise location-enrichment pipeline

This development embeds the enrichment/caching/retry engine of
`modules/preprocessing_distance.py` (street-name normalisation, the location
cache, the geocoding client with retry/backoff, the tiered MRT proximity
search, and the enrichment orchestration loop) as executable Lean definitions
and proves the specified properties about them.

Modelling conventions:
* Python strings are modelled as `List Char` / `String`, with `str.upper`
  modelled by `Char.toUpper` (faithful on the ASCII range the data uses) and
  `str.split()` / `str.strip()` modelled on `Char.isWhitespace`.
* Machine floats are modelled as `Rat`; `numpy.nan` / absent values are
  modelled as `Option.none`.
* The external services (the geocoding endpoint and the nearby-station
  endpoint) are modelled as oracles supplied to the functions; a transport
  failure (`requests.exceptions.RequestException`, re-raised as
  `OneMapAPIError`) is an `Except.error`.
* `geopy.distance.great_circle` is an external library and is modelled as an
  abstract distance function parameter.
-/

set_option autoImplicit false

/-! ## Python string primitives (ASCII model) -/

/-- Model of the Python whitespace test used by `str.split()` / `str.strip()`. -/
def pyIsSpace (c : Char) : Bool := c.isWhitespace

/-- Model of `str.upper()` (character-wise, faithful on ASCII). -/
def pyUpper (s : List Char) : List Char := s.map Char.toUpper

/-- Model of `str.strip()`: drop whitespace from both ends. -/
def pyStrip (s : List Char) : List Char :=
  ((s.dropWhile pyIsSpace).reverse.dropWhile pyIsSpace).reverse

/-- Worker for `pySplit`: `acc` holds the current word, reversed. -/
def pySplitAux : List Char → List Char → List (List Char)
  | acc, [] => if acc.isEmpty then [] else [acc.reverse]
  | acc, c :: rest =>
    if pyIsSpace c then
      if acc.isEmpty then pySplitAux [] rest else acc.reverse :: pySplitAux [] rest
    else pySplitAux (c :: acc) rest

/-- Model of no-argument `str.split()`: split on whitespace runs, no empty words. -/
def pySplit (s : List Char) : List (List Char) := pySplitAux [] s

/-- Model of `' '.join(words)`. -/
def joinWords : List (List Char) → List Char
  | [] => []
  | [w] => w
  | w :: ws => w ++ ' ' :: joinWords ws

/-! ## The street-abbreviation table and normaliser
(`STREET_ABBREVIATIONS`, `normalise_street_name` in the source) -/

/-- The COMMONWEALTH abbreviation key that contains an apostrophe
(built explicitly; `Char.ofNat 39` is the apostrophe). -/
def cwealthKey : String := String.mk ['C', Char.ofNat 39, 'W', 'E', 'A', 'L', 'T', 'H']

/-- The `STREET_ABBREVIATIONS` dictionary of the source, in source order. -/
def STREET_ABBREVIATIONS : List (String × String) := [
  ("AVE", "AVENUE"), ("ST", "STREET"), ("RD", "ROAD"), ("JLN", "JALAN"),
  ("LOR", "LORONG"), ("BLVD", "BOULEVARD"), ("CL", "CLOSE"), ("CRES", "CRESCENT"),
  ("CT", "COURT"), ("DR", "DRIVE"), ("GR", "GROVE"), ("LK", "LINK"),
  ("PL", "PLACE"), ("PK", "PARK"), ("SQ", "SQUARE"), ("TER", "TERRACE"),
  ("TG", "TANJONG"), ("BT", "BUKIT"), ("UPP", "UPPER"), ("CTRL", "CENTRAL"),
  ("NTH", "NORTH"), ("STH", "SOUTH"), ("EST", "ESTATE"),
  (cwealthKey, "COMMONWEALTH"), ("CWEALTH", "COMMONWEALTH")]

/-- Model of `STREET_ABBREVIATIONS.get(word, word)` of the source. -/
def expandWord (w : List Char) : List Char :=
  match STREET_ABBREVIATIONS.find? (fun p => p.1.data == w) with
  | some p => p.2.data
  | none => w

/-- The body of `normalise_street_name` on a non-null input:
`' '.join(STREET_ABBREVIATIONS.get(w, w) for w in str(x).strip().upper().split())`. -/
def normaliseChars (s : List Char) : List Char :=
  joinWords ((pySplit (pyUpper (pyStrip s))).map expandWord)

/-- Model of `normalise_street_name` of the source on a string input
(`pd.isna` is false for every string, so this is the non-null branch). -/
def normalise_street_name (s : String) : String := String.mk (normaliseChars s.data)

/-- Variant of `normalise_street_name` including the `pd.isna` branch: a null input
yields the empty string. -/
def normaliseStreetNameOpt : Option String → String
  | none => ""
  | some s => normalise_street_name s

/-- A word emitted by the splitter: non-empty and whitespace-free. -/
def goodWord (w : List Char) : Prop := w ≠ [] ∧ ∀ c ∈ w, pyIsSpace c = false

/-! ## The cache entry data model

A `CacheEntry` as written by the orchestrator: a dictionary with the fields
block, street_name, latitude, longitude, nearest_mrt, dist_mrt_km and
search_radius_km.  The last three are `np.nan` when no
station was found within 5 km; `nan` (and absence) is modelled as `none`. -/

structure Entry where
  block : String
  street_name : String
  latitude : Rat
  longitude : Rat
  nearest_mrt : Option String
  dist_mrt_km : Option Rat
  search_radius_km : Option Rat
deriving DecidableEq

/-- A Python `dict` keyed by address key, in insertion order. -/
abbrev Cache := List (String × Entry)

/-! ## The cache file model (`load_cache` / `save_cache`)

The Python `json` library is an external collaborator; its parse/print round
trip on JSON object values is taken as its contract.  A stored JSON document
is either an object deserialisable as a cache mapping (`jobj`) or some other
valid JSON document, e.g. a list (`nonObj`), which `json.load` also returns
successfully. -/

inductive JVal where
  | jobj (m : Cache)
  | nonObj
deriving DecidableEq

/-- The state of the file at the cache path.  `unreadable` is a file-system
state in which `os.path.exists` is true but `open`/`read` raises an
`OSError` (a directory at that path, permission denied, I/O error);
`corrupt` is a readable file whose content makes `json.load` raise
`JSONDecodeError`. -/
inductive FileState where
  | absent
  | unreadable
  | corrupt
  | readable (v : JVal)
deriving DecidableEq

/-- Model of `load_cache` of the source: returns an empty mapping when the file is absent, catches
only `json.JSONDecodeError` (returning `{}`), propagates `OSError`, and
returns whatever `json.load` produced otherwise. -/
def load_cache : FileState → Except Unit JVal
  | .absent => .ok (.jobj [])
  | .unreadable => .error ()
  | .corrupt => .ok (.jobj [])
  | .readable v => .ok v

/-- Model of `save_cache` of the source: overwrite the file with the JSON
serialisation of the full mapping. -/
def save_cache (m : Cache) : FileState := .readable (.jobj m)

/-! ## The proximity search engine (`find_nearest_mrt`, `get_mrt_with_retry`) -/

/-- A station in the nearby-station service response. -/
structure Station where
  name : String
  slat : Rat
  slon : Rat
deriving DecidableEq

/-- Abstract model of `geopy.distance.great_circle(a, b).km`. -/
abbrev GCDist := (Rat × Rat) → (Rat × Rat) → Rat

def stationDist (d : GCDist) (flat : Rat × Rat) (s : Station) : Rat :=
  d flat (s.slat, s.slon)

/-- Python `round(x, 3)` on the `Rat` model (round half to even). -/
def roundHalfEven (q : Rat) : Int :=
  let f := q.floor
  let r := q - (f : Rat)
  if r < 1/2 then f
  else if 1/2 < r then f + 1
  else if f % 2 = 0 then f else f + 1

def round3 (q : Rat) : Rat := (roundHalfEven (q * 1000) : Rat) / 1000

/-- The scan of `find_nearest_mrt` over the response: keep the strictly
nearest station seen so far (`none` models `nearest_mrt_dist = inf`,
`nearest_mrt_name = None`). -/
def mrtLoop (d : GCDist) (flat : Rat × Rat) :
    List Station → Option (String × Rat) → Option (String × Rat)
  | [], best => best
  | s :: rest, best =>
    let dk := stationDist d flat s
    match best with
    | none => mrtLoop d flat rest (some (s.name, dk))
    | some (bn, bd) =>
      if dk < bd then mrtLoop d flat rest (some (s.name, dk))
      else mrtLoop d flat rest (some (bn, bd))

/-- Model of `find_nearest_mrt` of the source, over an abstract service response
`resp` (an `Except.error` is a transport failure re-raised as
`OneMapAPIError`).  The final `if nearest_mrt_name:` is Python truthiness:
both `None` and the empty string fall through to `return None`. -/
def find_nearest_mrt (d : GCDist) (flat : Rat × Rat)
    (resp : Except Unit (List Station)) : Except Unit (Option (String × Rat)) :=
  match resp with
  | .error _ => .error ()
  | .ok data =>
    if data.isEmpty then .ok none
    else
      match mrtLoop d flat data none with
      | some (n, bd) => if n = "" then .ok none else .ok (some (n, round3 bd))
      | none => .ok none

/-- The result dictionary of `get_mrt_with_retry`; `np.nan` fields are
`none`. -/
structure MrtRetryResult where
  nearest_mrt : Option String
  dist_mrt_km : Option Rat
  search_radius_km : Option Rat
deriving DecidableEq

/-- Model of `get_mrt_with_retry` of the source over the two tier responses: tier 1
(2 km) is consulted first; on no result or on `OneMapAPIError` fall through
to tier 2 (5 km); on no result or error again, return the all-null result. -/
def get_mrt_with_retry (d : GCDist) (flat : Rat × Rat)
    (t1 t2 : Except Unit (List Station)) : MrtRetryResult :=
  match find_nearest_mrt d flat t1 with
  | .ok (some (n, dk)) => ⟨some n, some dk, some 2⟩
  | _ =>
    match find_nearest_mrt d flat t2 with
    | .ok (some (n, dk)) => ⟨some n, some dk, some 5⟩
    | _ => ⟨none, none, none⟩

/-! ## The network oracle and the geocoding client (`geocode_address`) -/

/-- One network call, tagged with its request data. -/
inductive NetCall where
  | geo (addr : String) (attempt : Nat)
  | mrt (lat lon : Rat) (radius : Nat)
deriving DecidableEq

/-- The external service, as a deterministic oracle: `geo addr attempt` is
the outcome of the geocoding search for `addr` on retry attempt `attempt`
(`error` = transport failure, `ok` = the parsed result list); `mrt lat lon
radius` is the outcome of the nearby-station call. -/
structure Net where
  geo : String → Nat → Except Unit (List (Rat × Rat))
  mrt : Rat → Rat → Nat → Except Unit (List Station)

/-- Variant of `get_mrt_with_retry` issuing its calls through the oracle, returning the
result together with the network calls made (tier 2 is only called when
tier 1 produced no station). -/
def get_mrt_with_retry_net (d : GCDist) (net : Net) (lat lon : Rat) :
    MrtRetryResult × List NetCall :=
  match find_nearest_mrt d (lat, lon) (net.mrt lat lon 2000) with
  | .ok (some (n, dk)) => (⟨some n, some dk, some 2⟩, [.mrt lat lon 2000])
  | _ =>
    match find_nearest_mrt d (lat, lon) (net.mrt lat lon 5000) with
    | .ok (some (n, dk)) =>
      (⟨some n, some dk, some 5⟩, [.mrt lat lon 2000, .mrt lat lon 5000])
    | _ => (⟨none, none, none⟩, [.mrt lat lon 2000, .mrt lat lon 5000])

/-- The observable trace of one `geocode_address` run: its outcome
(`error` = `OneMapAPIError` raised after exhausting retries, `ok none` =
empty result list, i.e. address not found), the back-off delays slept, and
the network calls made. -/
structure GeoTrace where
  result : Except Unit (Option (Rat × Rat))
  delays : List Rat
  calls : List NetCall

/-- The `for attempt in range(3)` loop of `geocode_address`, over the list of
remaining attempt indices; `rest.isEmpty` is the test `attempt < 2` of the source
test negated (the last attempt re-raises instead of sleeping). -/
def geocodeLoop (net : Net) (base : Rat) (addr : String) : List Nat → GeoTrace
  | [] => ⟨.ok none, [], []⟩
  | attempt :: rest =>
    match net.geo addr attempt with
    | .ok [] => ⟨.ok none, [], [.geo addr attempt]⟩
    | .ok ((la, lo) :: _) => ⟨.ok (some (la, lo)), [], [.geo addr attempt]⟩
    | .error _ =>
      if rest.isEmpty then ⟨.error (), [], [.geo addr attempt]⟩
      else
        let t := geocodeLoop net base addr rest
        ⟨t.result, base * 2 ^ attempt :: t.delays, .geo addr attempt :: t.calls⟩

/-- Model of `geocode_address` of the source: search for the string `block`, a space and `street`, with up
to 3 attempts; `base` is `API_DELAY_SEC`. -/
def geocode_address (net : Net) (base : Rat) (blk street : String) : GeoTrace :=
  geocodeLoop net base (blk ++ " " ++ street) [0, 1, 2]

/-- Model of `get_location_data_from_onemap` of the source: geocode (catching
`OneMapAPIError` and mapping both it and not-found to `None`), then run the
tiered MRT search and assemble the cache entry. -/
def get_location_data_from_onemap (d : GCDist) (net : Net) (base : Rat)
    (blk street : String) : Option Entry × List NetCall :=
  let g := geocode_address net base blk street
  match g.result with
  | .error _ => (none, g.calls)
  | .ok none => (none, g.calls)
  | .ok (some (la, lo)) =>
    let m := get_mrt_with_retry_net d net la lo
    (some ⟨blk, street, la, lo, m.1.nearest_mrt, m.1.dist_mrt_km,
      m.1.search_radius_km⟩, g.calls ++ m.2)

/-! ## The enrichment orchestrator (`enrich_with_location_data`) -/

/-- Dictionary assignment of value `v` at key `k` on the insertion-ordered mapping model. -/
def dictInsert (k : String) (v : Entry) : Cache → Cache
  | [] => [(k, v)]
  | (k0, v0) :: rest =>
    if k0 = k then (k, v) :: rest else (k0, v0) :: dictInsert k v rest

def dictKeys (c : Cache) : List String := c.map Prod.fst

/-- An input transaction record (only the address-bearing fields matter to
the enrichment engine). -/
structure TxRec where
  block : String
  street_name : String
deriving DecidableEq

/-- The address key: the block, a space, and the normalised street name. -/
def txKey (r : TxRec) : String :=
  r.block ++ " " ++ normalise_street_name r.street_name

/-- One row of the `unique_addresses` frame:
`(block, clean_street_name, address_key)`. -/
structure Addr where
  block : String
  clean_street : String
  key : String
deriving DecidableEq

def addrOf (r : TxRec) : Addr :=
  ⟨r.block, normalise_street_name r.street_name, txKey r⟩

/-- Model of `drop_duplicates()` (pandas keeps the first occurrence); `seen` is the
set of rows already kept. -/
def dedupKeepFirst {α : Type} [DecidableEq α] : List α → List α → List α
  | _, [] => []
  | seen, a :: rest =>
    if a ∈ seen then dedupKeepFirst seen rest
    else a :: dedupKeepFirst (a :: seen) rest

def uniqueAddresses (rs : List TxRec) : List Addr :=
  dedupKeepFirst [] (rs.map addrOf)

/-- The external coordinate table (`sg_zipcode_mapper.csv`), as the mapping
its left-merge by `address_key` realises. -/
abbrev ZTable := String → Option (Rat × Rat)

/-- The `addresses_with_coords` partition: unique addresses that have coordinates in the
external table and are not already in the loaded cache. -/
def addressesWithCoords (zt : ZTable) (processed : List String)
    (uas : List Addr) : List (Addr × Rat × Rat) :=
  uas.filterMap fun a =>
    if a.key ∈ processed then none
    else
      match zt a.key with
      | some (la, lo) => some (a, la, lo)
      | none => none

/-- The `addresses_without_coords` partition: unique addresses with no external
coordinates and not already in the loaded cache. -/
def addressesWithoutCoords (zt : ZTable) (processed : List String)
    (uas : List Addr) : List Addr :=
  uas.filter fun a => decide (a.key ∉ processed) && (zt a.key).isNone

/-- The `stats` dictionary of the orchestrator. -/
structure Stats where
  total_processed : Nat
  has_coords : Nat
  no_coords : Nat
  geocode_success : Nat
  geocode_failed : Nat
  mrt_2km : Nat
  mrt_5km : Nat
  no_mrt : Nat
  api_calls_saved : Nat
deriving DecidableEq

/-- The tier-counter update after a resolved address:
`if pd.notna(search_radius_km): ... elif ... else no_mrt += 1`. -/
def bumpTier (s : Stats) (r : Option Rat) : Stats :=
  match r with
  | some v =>
    if v = 2 then {s with mrt_2km := s.mrt_2km + 1}
    else if v = 5 then {s with mrt_5km := s.mrt_5km + 1}
    else s
  | none => {s with no_mrt := s.no_mrt + 1}

/-- The first processing loop (addresses with existing coordinates: MRT
lookup only).  Calls are tagged with the address key being processed. -/
def coordsLoop (d : GCDist) (net : Net) :
    List (Addr × Rat × Rat) → Cache → Stats →
    Cache × Stats × List (String × NetCall)
  | [], c, s => (c, s, [])
  | (a, la, lo) :: rest, c, s =>
    let m := get_mrt_with_retry_net d net la lo
    let e : Entry := ⟨a.block, a.clean_street, la, lo, m.1.nearest_mrt,
      m.1.dist_mrt_km, m.1.search_radius_km⟩
    let c1 := dictInsert a.key e c
    let sa := {s with total_processed := s.total_processed + 1}
    let sb := {sa with has_coords := sa.has_coords + 1}
    let s1 := bumpTier {sb with geocode_success := sb.geocode_success + 1}
      m.1.search_radius_km
    let q := coordsLoop d net rest c1 s1
    (q.1, q.2.1, m.2.map (fun x => (a.key, x)) ++ q.2.2)

/-- The second processing loop (addresses needing geocode + MRT); a `None`
from `get_location_data_from_onemap` increments `geocode_failed` and the
loop continues. -/
def fullLoop (d : GCDist) (net : Net) (base : Rat) :
    List Addr → Cache → Stats → Cache × Stats × List (String × NetCall)
  | [], c, s => (c, s, [])
  | a :: rest, c, s =>
    let sa := {s with total_processed := s.total_processed + 1}
    let s0 := {sa with no_coords := sa.no_coords + 1}
    let r := get_location_data_from_onemap d net base a.block a.clean_street
    let cs : Cache × Stats :=
      match r.1 with
      | some e =>
        (dictInsert a.key e c,
          bumpTier {s0 with geocode_success := s0.geocode_success + 1}
            e.search_radius_km)
      | none => (c, {s0 with geocode_failed := s0.geocode_failed + 1})
    let q := fullLoop d net base rest cs.1 cs.2
    (q.1, q.2.1, r.2.map (fun x => (a.key, x)) ++ q.2.2)

/-- An output record: the original record joined with its location
features (all `none` when its address key has no cache entry). -/
structure ERec where
  tx : TxRec
  latitude : Option Rat
  longitude : Option Rat
  nearest_mrt : Option String
  dist_mrt_km : Option Rat
  search_radius_km : Option Rat
deriving DecidableEq

/-- The `location_features` frame: the cache values with the address key recomputed
from `block` and `street_name`, full-row deduplicated (first kept). -/
def locationFeatures (c : Cache) : List (String × Entry) :=
  dedupKeepFirst [] (c.map fun p => (p.2.block ++ " " ++ p.2.street_name, p.2))

/-- The final left merge on `address_key`: every left row is
kept; unmatched rows get all-null location fields; a row is repeated for
each matching feature row. -/
def leftJoin (features : List (String × Entry)) (rs : List (TxRec × String)) :
    List ERec :=
  rs.flatMap fun rk =>
    match features.filter (fun f => f.1 = rk.2) with
    | [] => [⟨rk.1, none, none, none, none, none⟩]
    | fs => fs.map fun f =>
        ⟨rk.1, some f.2.latitude, some f.2.longitude, f.2.nearest_mrt,
          f.2.dist_mrt_km, f.2.search_radius_km⟩

/-- The observable outcome of one `enrich_with_location_data` run.
`outcome` is `error` when the run raises before returning: with an empty
final cache the merge branch is skipped (`final_df = df`), and the
MRT-coverage statistics block then subscripts the absent `dist_mrt_km` /
`search_radius_km` columns, raising `KeyError`. -/
structure RunOut where
  outcome : Except Unit (List ERec)
  stats : Stats
  calls : List (String × NetCall)

/-- Model of `enrich_with_location_data` of the source: normalise and deduplicate
addresses, load the cache, partition against the external coordinate table
and the cached keys, run the two processing loops, then left-join the cache
entries back onto every record.  `api_calls_saved` is set to
`len(addresses_with_coords)` before the loops run. -/
def enrich_with_location_data (d : GCDist) (net : Net) (base : Rat)
    (zt : ZTable) (cache0 : Cache) (records : List TxRec) : RunOut :=
  let recsK := records.map fun r => (r, txKey r)
  let uas := uniqueAddresses records
  let processed := dictKeys cache0
  let withC := addressesWithCoords zt processed uas
  let withoutC := addressesWithoutCoords zt processed uas
  let stats0 : Stats := ⟨0, 0, 0, 0, 0, 0, 0, 0, withC.length⟩
  let r1 := coordsLoop d net withC cache0 stats0
  let r2 := fullLoop d net base withoutC r1.1 r1.2.1
  let outcome :=
    if r2.1.isEmpty then Except.error ()
    else Except.ok (leftJoin (locationFeatures r2.1) recsK)
  ⟨outcome, r2.2.1, r1.2.2 ++ r2.2.2⟩

/-- Specification helper for the nearest-station selection: the first
station of the list attaining the minimal distance (an earlier station wins
a tie). -/
def firstMinStation (ds : Station → Rat) : List Station → Option Station
  | [] => none
  | s :: rest =>
    match firstMinStation ds rest with
    | none => some s
    | some t => if ds t < ds s then some t else some s

/-! ## Concrete instances used by witnesses and counterexamples -/

def distZero : GCDist := fun _ _ => 0

def netEmpty : Net := ⟨fun _ _ => .ok [], fun _ _ _ => .ok []⟩

def netFailGeo : Net := ⟨fun _ _ => .error (), fun _ _ _ => .ok []⟩

def netOneHit : Net := ⟨fun _ _ => .ok [(1, 1)], fun _ _ _ => .ok [⟨"S", 1, 1⟩]⟩

def ztNone : ZTable := fun _ => none

def entryX : Entry := ⟨"1", "X", 0, 0, none, none, none⟩

def cacheX : Cache := [("1 X", entryX)]

def txX : List TxRec := [⟨"1", "X"⟩]

def txThree : List TxRec := [⟨"1", "X"⟩, ⟨"1", "X"⟩, ⟨"1", "X"⟩]

def stationsW : List Station := [⟨"A", 3, 4⟩, ⟨"B", 5, 6⟩]

example : normalise_street_name "123 ANG MO KIO AVE 3" = "123 ANG MO KIO AVENUE 3" := by
  decide

example : normalise_street_name "  bt timah  rd " = "BUKIT TIMAH ROAD" := by decide

/-! ## Idempotence of the normaliser -/

theorem char_toUpper_idem (c : Char) : c.toUpper.toUpper = c.toUpper := by
  have key : ∀ n : Nat, 97 ≤ n → n ≤ 122 → (Char.ofNat (n - 32)).toNat = n - 32 := by
    intro n h1 h2
    have hvalid : (n - 32).isValidChar := Or.inl (by omega)
    rw [Char.ofNat, dif_pos hvalid]
    simp [Char.ofNatAux, Char.toNat, UInt32.ofNat', UInt32.toNat, BitVec.toNat_ofNatLt]
  simp only [Char.toUpper]
  by_cases h : c.toNat ≥ 97 ∧ c.toNat ≤ 122
  · rw [if_pos h, if_neg]
    rw [key c.toNat h.1 h.2]
    omega
  · rw [if_neg h, if_neg h]

theorem map_fixed {α : Type} (f : α → α) :
    ∀ l : List α, (∀ a ∈ l, f a = a) → l.map f = l := by
  intro l hl
  induction l with
  | nil => rfl
  | cons a t ih =>
    simp only [List.map_cons, hl a (by simp)]
    rw [ih fun b hb => hl b (by simp [hb])]

theorem dropWhile_all_false {p : Char → Bool} :
    ∀ l : List Char, (∀ c ∈ l, p c = false) → l.dropWhile p = l := by
  intro l hl
  cases l with
  | nil => rfl
  | cons c t => simp [List.dropWhile_cons, hl c (by simp)]

theorem length_dropWhile_le' {p : Char → Bool} : ∀ l : List Char,
    (l.dropWhile p).length ≤ l.length := by
  intro l
  induction l with
  | nil => simp
  | cons c t ih =>
    rw [List.dropWhile_cons]
    by_cases h : p c = true
    · simp only [if_pos h]
      exact Nat.le_trans ih (Nat.le_succ _)
    · simp [h]

theorem head_not_of_dropWhile_self {p : Char → Bool} {c : Char} {t : List Char}
    (h : (c :: t).dropWhile p = c :: t) : p c = false := by
  by_cases hc : p c = true
  · exfalso
    rw [List.dropWhile_cons, if_pos hc] at h
    have := length_dropWhile_le' (p := p) t
    rw [h] at this
    simp at this
  · simpa using hc

theorem dropWhile_append_of_ne_nil {p : Char → Bool} {l t : List Char}
    (hne : l ≠ []) (hself : l.dropWhile p = l) : (l ++ t).dropWhile p = l ++ t := by
  cases l with
  | nil => exact absurd rfl hne
  | cons c l0 =>
    have hc := head_not_of_dropWhile_self hself
    simp [List.dropWhile_cons, hc]

theorem pySplitAux_good : ∀ (s acc : List Char), (∀ c ∈ acc, pyIsSpace c = false) →
    ∀ w ∈ pySplitAux acc s, goodWord w := by
  intro s
  induction s with
  | nil =>
    intro acc hacc w hw
    simp only [pySplitAux] at hw
    cases h : acc.isEmpty with
    | true => simp [h] at hw
    | false =>
      rw [h] at hw
      simp only [if_false, Bool.false_eq_true, List.mem_singleton] at hw
      subst hw
      refine ⟨?_, ?_⟩
      · intro habs
        rw [List.reverse_eq_nil_iff] at habs
        subst habs
        simp at h
      · intro c hc
        exact hacc c (List.mem_reverse.mp hc)
  | cons c rest ih =>
    intro acc hacc w hw
    simp only [pySplitAux] at hw
    by_cases hsp : pyIsSpace c = true
    · rw [if_pos hsp] at hw
      cases h : acc.isEmpty with
      | true =>
        rw [h] at hw
        simp only [if_true] at hw
        exact ih [] (by simp) w hw
      | false =>
        rw [h] at hw
        simp only [Bool.false_eq_true, if_false, List.mem_cons] at hw
        rcases hw with hw | hw
        · subst hw
          refine ⟨?_, fun d hd => hacc d (List.mem_reverse.mp hd)⟩
          intro habs
          rw [List.reverse_eq_nil_iff] at habs
          subst habs
          simp at h
        · exact ih [] (by simp) w hw
    · rw [if_neg hsp] at hw
      refine ih (c :: acc) ?_ w hw
      intro d hd
      rcases List.mem_cons.mp hd with hd | hd
      · subst hd
        simpa using hsp
      · exact hacc d hd

theorem pySplitAux_chars : ∀ (s acc w : List Char) (c : Char),
    w ∈ pySplitAux acc s → c ∈ w → c ∈ s ∨ c ∈ acc := by
  intro s
  induction s with
  | nil =>
    intro acc w c hw hc
    simp only [pySplitAux] at hw
    cases h : acc.isEmpty with
    | true => simp [h] at hw
    | false =>
      rw [h] at hw
      simp only [Bool.false_eq_true, if_false, List.mem_singleton] at hw
      subst hw
      exact Or.inr (List.mem_reverse.mp hc)
  | cons a rest ih =>
    intro acc w c hw hc
    simp only [pySplitAux] at hw
    by_cases hsp : pyIsSpace a = true
    · rw [if_pos hsp] at hw
      have fromRest : w ∈ pySplitAux [] rest → c ∈ a :: rest ∨ c ∈ acc := by
        intro hw'
        rcases ih [] w c hw' hc with h | h
        · exact Or.inl (List.mem_cons_of_mem a h)
        · simp at h
      cases h : acc.isEmpty with
      | true =>
        rw [h] at hw
        simp only [if_true] at hw
        exact fromRest hw
      | false =>
        rw [h] at hw
        simp only [Bool.false_eq_true, if_false, List.mem_cons] at hw
        rcases hw with hw | hw
        · subst hw
          exact Or.inr (List.mem_reverse.mp hc)
        · exact fromRest hw
    · rw [if_neg hsp] at hw
      rcases ih (a :: acc) w c hw hc with h | h
      · exact Or.inl (List.mem_cons_of_mem a h)
      · rcases List.mem_cons.mp h with h | h
        · exact Or.inl (h ▸ List.mem_cons_self a rest)
        · exact Or.inr h

theorem pySplitAux_shift : ∀ (w rest acc : List Char),
    (∀ c ∈ w, pyIsSpace c = false) →
    pySplitAux acc (w ++ rest) = pySplitAux (w.reverse ++ acc) rest := by
  intro w
  induction w with
  | nil => intro rest acc _; simp
  | cons c w0 ih =>
    intro rest acc hw
    have hc : pyIsSpace c = false := hw c (by simp)
    simp only [List.cons_append, pySplitAux, hc, Bool.false_eq_true, if_false,
      List.append_eq]
    rw [ih rest (c :: acc) (fun d hd => hw d (by simp [hd]))]
    simp

theorem pySplit_join : ∀ ws : List (List Char), (∀ w ∈ ws, goodWord w) →
    pySplit (joinWords ws) = ws := by
  intro ws
  induction ws with
  | nil => intro _; rfl
  | cons w ws ih =>
    intro hgood
    have hw := hgood w (by simp)
    cases ws with
    | nil =>
      show pySplitAux [] (joinWords [w]) = [w]
      simp only [joinWords]
      rw [show w = w ++ [] by simp, pySplitAux_shift w [] [] hw.2]
      simp only [pySplitAux, List.append_nil, List.isEmpty_eq_true,
        List.reverse_eq_nil_iff]
      rw [if_neg hw.1]
      simp
    | cons w2 ws2 =>
      show pySplitAux [] (joinWords (w :: w2 :: ws2)) = w :: w2 :: ws2
      simp only [joinWords]
      rw [pySplitAux_shift w (' ' :: joinWords (w2 :: ws2)) [] hw.2]
      simp only [pySplitAux, pyIsSpace, Char.isWhitespace]
      rw [if_pos (by simp)]
      have hne : (w.reverse ++ []).isEmpty = false := by
        simp [List.isEmpty_eq_false, hw.1]
      rw [hne]
      simp only [Bool.false_eq_true, if_false, List.append_nil, List.reverse_reverse]
      have := ih (fun u hu => hgood u (by simp [hu]))
      rw [show pySplitAux [] (joinWords (w2 :: ws2)) = pySplit (joinWords (w2 :: ws2)) from rfl,
        this]

theorem joinWords_ne_nil : ∀ ws : List (List Char), ws ≠ [] →
    (∀ w ∈ ws, goodWord w) → joinWords ws ≠ [] := by
  intro ws hne hgood
  cases ws with
  | nil => exact absurd rfl hne
  | cons w ws2 =>
    cases ws2 with
    | nil => exact (hgood w (by simp)).1
    | cons w2 ws3 =>
      simp only [joinWords]
      intro habs
      exact (hgood w (by simp)).1 (List.append_eq_nil.mp habs).1

theorem dropWhile_joinWords : ∀ ws : List (List Char), (∀ w ∈ ws, goodWord w) →
    (joinWords ws).dropWhile pyIsSpace = joinWords ws := by
  intro ws hgood
  cases ws with
  | nil => rfl
  | cons w ws2 =>
    have hw := hgood w (by simp)
    obtain ⟨t, ht⟩ : ∃ t, joinWords (w :: ws2) = w ++ t := by
      cases ws2 with
      | nil => exact ⟨[], by simp [joinWords]⟩
      | cons w2 ws3 => exact ⟨' ' :: joinWords (w2 :: ws3), rfl⟩
    rw [ht]
    cases hcw : w with
    | nil => exact absurd hcw hw.1
    | cons c w0 =>
      have hc : pyIsSpace c = false := hw.2 c (by rw [hcw]; simp)
      simp [List.dropWhile_cons, hc]

theorem reverse_dropWhile_joinWords : ∀ ws : List (List Char),
    (∀ w ∈ ws, goodWord w) →
    (joinWords ws).reverse.dropWhile pyIsSpace = (joinWords ws).reverse := by
  intro ws
  induction ws with
  | nil => intro _; rfl
  | cons w ws2 ih =>
    intro hgood
    have hw := hgood w (by simp)
    cases ws2 with
    | nil =>
      show w.reverse.dropWhile pyIsSpace = w.reverse
      exact dropWhile_all_false _ (fun c hc => hw.2 c (List.mem_reverse.mp hc))
    | cons w2 ws3 =>
      have hrest : ∀ u ∈ w2 :: ws3, goodWord u := fun u hu => hgood u (by simp [hu])
      show (joinWords (w :: w2 :: ws3)).reverse.dropWhile pyIsSpace
        = (joinWords (w :: w2 :: ws3)).reverse
      have hj : joinWords (w :: w2 :: ws3) = w ++ ' ' :: joinWords (w2 :: ws3) := rfl
      rw [hj, List.reverse_append, List.reverse_cons]
      have hne : (joinWords (w2 :: ws3)).reverse ≠ [] := by
        intro habs
        exact joinWords_ne_nil (w2 :: ws3) (by simp) hrest
          (by rw [← List.reverse_reverse (joinWords (w2 :: ws3)), habs]; rfl)
      rw [List.append_assoc]
      exact dropWhile_append_of_ne_nil hne (ih hrest)

theorem pyStrip_join (ws : List (List Char)) (hgood : ∀ w ∈ ws, goodWord w) :
    pyStrip (joinWords ws) = joinWords ws := by
  unfold pyStrip
  rw [dropWhile_joinWords ws hgood, reverse_dropWhile_joinWords ws hgood,
    List.reverse_reverse]

theorem pyUpper_join : ∀ ws : List (List Char),
    pyUpper (joinWords ws) = joinWords (ws.map pyUpper) := by
  intro ws
  induction ws with
  | nil => rfl
  | cons w ws2 ih =>
    cases ws2 with
    | nil => rfl
    | cons w2 ws3 =>
      show pyUpper (w ++ ' ' :: joinWords (w2 :: ws3))
        = pyUpper w ++ ' ' :: joinWords ((w2 :: ws3).map pyUpper)
      rw [← ih]
      simp only [pyUpper, List.map_append, List.map_cons]
      have : Char.toUpper ' ' = ' ' := by decide
      rw [this]

theorem abbrevValues_good : ∀ p ∈ STREET_ABBREVIATIONS,
    p.2.data ≠ [] ∧ ∀ c ∈ p.2.data, pyIsSpace c = false := by decide

theorem abbrevValues_upper : ∀ p ∈ STREET_ABBREVIATIONS,
    pyUpper p.2.data = p.2.data := by decide

theorem abbrevValues_notKeys : ∀ p ∈ STREET_ABBREVIATIONS,
    STREET_ABBREVIATIONS.find? (fun q => q.1.data == p.2.data) = none := by decide

theorem expandWord_good {w : List Char} (hw : goodWord w) : goodWord (expandWord w) := by
  unfold expandWord
  cases h : STREET_ABBREVIATIONS.find? (fun p => p.1.data == w) with
  | none => exact hw
  | some p => exact abbrevValues_good p (List.mem_of_find?_eq_some h)

theorem expandWord_upper {w : List Char} (hup : pyUpper w = w) :
    pyUpper (expandWord w) = expandWord w := by
  unfold expandWord
  cases h : STREET_ABBREVIATIONS.find? (fun p => p.1.data == w) with
  | none => exact hup
  | some p => exact abbrevValues_upper p (List.mem_of_find?_eq_some h)

theorem expandWord_expandWord (w : List Char) :
    expandWord (expandWord w) = expandWord w := by
  cases h : STREET_ABBREVIATIONS.find? (fun p => p.1.data == w) with
  | none =>
    have hfix : expandWord w = w := by unfold expandWord; rw [h]
    rw [hfix, hfix]
  | some p =>
    have hval : expandWord w = p.2.data := by unfold expandWord; rw [h]
    rw [hval]
    unfold expandWord
    rw [abbrevValues_notKeys p (List.mem_of_find?_eq_some h)]

theorem normaliseChars_idem (s : List Char) :
    normaliseChars (normaliseChars s) = normaliseChars s := by
  set ws := (pySplit (pyUpper (pyStrip s))).map expandWord with hws
  have tokens_good : ∀ v ∈ pySplit (pyUpper (pyStrip s)), goodWord v :=
    fun v hv => pySplitAux_good _ [] (by simp) v hv
  have tokens_upper : ∀ v ∈ pySplit (pyUpper (pyStrip s)), pyUpper v = v := by
    intro v hv
    refine map_fixed _ v ?_
    intro c hc
    rcases pySplitAux_chars _ [] v c hv hc with h | h
    · rcases List.mem_map.mp h with ⟨c0, _, hc0⟩
      rw [← hc0]
      exact char_toUpper_idem c0
    · simp at h
  have hgood : ∀ w ∈ ws, goodWord w := by
    intro w hw
    rcases List.mem_map.mp hw with ⟨v, hv, hvw⟩
    exact hvw ▸ expandWord_good (tokens_good v hv)
  have hupper : ∀ w ∈ ws, pyUpper w = w := by
    intro w hw
    rcases List.mem_map.mp hw with ⟨v, hv, hvw⟩
    exact hvw ▸ expandWord_upper (tokens_upper v hv)
  have hexp : ∀ w ∈ ws, expandWord w = w := by
    intro w hw
    rcases List.mem_map.mp hw with ⟨v, _, hvw⟩
    exact hvw ▸ expandWord_expandWord v
  show normaliseChars (joinWords ws) = joinWords ws
  unfold normaliseChars
  rw [pyStrip_join ws hgood, pyUpper_join ws, map_fixed pyUpper ws hupper,
    pySplit_join ws hgood, map_fixed expandWord ws hexp]

/-! ## Claim C8: cache round trip -/

/-- C8: for every cache mapping, saving the cache and then loading it
reproduces a mapping identical to the one saved.  (The Python `json`
codec round trip on object values is the contract of the external library; in
the data produced by this program the only non-standard values are the
`NaN` no-station markers, modelled here as `none`.) -/
theorem claim8_cache_round_trip (m : Cache) :
    load_cache (save_cache m) = Except.ok (JVal.jobj m) := rfl

/-! ## Claim C6: cache loading never fails fatally -/

/-- C6 counterexample: the claim quantifies over every possible state of the
file at the cache path, but `load_cache` catches only
`json.JSONDecodeError`; a file-system state in which the `open`/`read`
raises `OSError` (e.g. a directory at that path, or permission denied)
propagates the exception instead of returning an empty mapping. -/
theorem claim6_counterexample :
    load_cache FileState.unreadable = Except.error () := rfl

/-- C6 amended: `load_cache` returns an empty mapping when the file is
absent, and logs a warning and returns an empty mapping when the file is
readable but `json.load` fails on its content; a readable well-formed file
is returned as parsed.  (OS-level read failures propagate, and a valid JSON
document that is not an object is returned as-is rather than as a mapping.) -/
theorem claim6_amended :
    load_cache FileState.absent = Except.ok (JVal.jobj []) ∧
    load_cache FileState.corrupt = Except.ok (JVal.jobj []) ∧
    ∀ v : JVal, load_cache (FileState.readable v) = Except.ok v :=
  ⟨rfl, rfl, fun _ => rfl⟩

/-! ## Claim C3: tiered proximity fallback -/

/-- C3: `get_mrt_with_retry` returns the tier-1 station with
`search_radius_km = 2.0` when the 2 km search finds one; otherwise the
tier-2 station with `search_radius_km = 5.0` when the widened 5 km search
finds one; otherwise the result whose name, distance and radius are all
null — and that null outcome is an ordinary return value (the codomain of
the function is `MrtRetryResult`, not an exception). -/
theorem claim3_tiered_fallback (d : GCDist) (flat : Rat × Rat)
    (t1 t2 : Except Unit (List Station)) :
    (∀ n dk, find_nearest_mrt d flat t1 = .ok (some (n, dk)) →
      get_mrt_with_retry d flat t1 t2 = ⟨some n, some dk, some 2⟩) ∧
    ((find_nearest_mrt d flat t1 = .ok none ∨
        find_nearest_mrt d flat t1 = .error ()) →
      ∀ n dk, find_nearest_mrt d flat t2 = .ok (some (n, dk)) →
        get_mrt_with_retry d flat t1 t2 = ⟨some n, some dk, some 5⟩) ∧
    ((find_nearest_mrt d flat t1 = .ok none ∨
        find_nearest_mrt d flat t1 = .error ()) →
      (find_nearest_mrt d flat t2 = .ok none ∨
        find_nearest_mrt d flat t2 = .error ()) →
      get_mrt_with_retry d flat t1 t2 = ⟨none, none, none⟩) := by
  refine ⟨?_, ?_, ?_⟩
  · intro n dk h1
    unfold get_mrt_with_retry
    rw [h1]
  · intro h1 n dk h2
    unfold get_mrt_with_retry
    rcases h1 with h1 | h1 <;> rw [h1, h2]
  · intro h1 h2
    unfold get_mrt_with_retry
    rcases h1 with h1 | h1 <;> rcases h2 with h2 | h2 <;> rw [h1, h2]

/-- C3 witness: a concrete run in which neither tier finds a station (tier 1
returns an empty list, tier 2 a transport failure) yields the all-null
value. -/
theorem claim3_witness :
    get_mrt_with_retry distZero (0, 0) (Except.ok []) (Except.error ()) =
      ⟨none, none, none⟩ :=
  (claim3_tiered_fallback distZero (0, 0) (Except.ok []) (Except.error ())).2.2
    (Or.inl rfl) (Or.inr rfl)

/-! ## Claim C10: a tier-2 transport failure is swallowed -/

/-- C10: when tier 1 produced no station (empty result or error) and the
tier-2 call fails with `OneMapAPIError`, `get_mrt_with_retry` swallows the
error and returns the all-null "no station within 5 km" value — the same
value it returns when tier 2 genuinely finds nothing, so the two situations
are observationally indistinguishable.  The function is total by its type:
it returns a `MrtRetryResult` and cannot raise. -/
theorem claim10_tier2_error_swallowed (d : GCDist) (flat : Rat × Rat)
    (t1 : Except Unit (List Station))
    (h : find_nearest_mrt d flat t1 = .ok none ∨
      find_nearest_mrt d flat t1 = .error ()) :
    get_mrt_with_retry d flat t1 (.error ()) = ⟨none, none, none⟩ ∧
    get_mrt_with_retry d flat t1 (.error ()) =
      get_mrt_with_retry d flat t1 (.ok []) := by
  constructor
  · unfold get_mrt_with_retry
    rcases h with h | h <;> rw [h] <;> rfl
  · unfold get_mrt_with_retry
    rcases h with h | h <;> rw [h] <;> rfl

/-- C10 witness at a concrete coordinate and tier-1 response. -/
theorem claim10_witness :
    get_mrt_with_retry distZero (1, 2) (Except.ok []) (Except.error ()) =
      ⟨none, none, none⟩ :=
  (claim10_tier2_error_swallowed distZero (1, 2) (Except.ok []) (Or.inl rfl)).1

/-! ## Claim C9: nearest-station selection -/

theorem firstMinStation_ne_none (ds : Station → Rat) (s : Station)
    (rest : List Station) : firstMinStation ds (s :: rest) ≠ none := by
  simp only [firstMinStation]
  cases firstMinStation ds rest with
  | none => simp
  | some t => by_cases h : ds t < ds s <;> simp [h]

theorem mrtLoop_acc_some (d : GCDist) (flat : Rat × Rat) : ∀ (ss : List Station)
    (t : Station), firstMinStation (stationDist d flat) ss = some t →
    ∀ (n : String) (b : Rat),
    mrtLoop d flat ss (some (n, b)) =
      if stationDist d flat t < b then some (t.name, stationDist d flat t)
      else some (n, b) := by
  intro ss
  induction ss with
  | nil => intro t ht; cases ht
  | cons s rest ih =>
    intro t ht n b
    show (if stationDist d flat s < b
        then mrtLoop d flat rest (some (s.name, stationDist d flat s))
        else mrtLoop d flat rest (some (n, b))) = _
    cases hfm : firstMinStation (stationDist d flat) rest with
    | none =>
      have hrest : rest = [] := by
        cases rest with
        | nil => rfl
        | cons a l => exact absurd hfm (firstMinStation_ne_none _ a l)
      subst hrest
      have hst : some s = some t := by
        simpa only [firstMinStation] using ht
      injection hst with hst
      subst hst
      by_cases hs : stationDist d flat s < b
      · rw [if_pos hs, if_pos hs]
        rfl
      · rw [if_neg hs, if_neg hs]
        rfl
    | some u =>
      have ht2 : (if stationDist d flat u < stationDist d flat s then some u
          else some s) = some t := by
        simpa only [firstMinStation, hfm] using ht
      by_cases hts : stationDist d flat u < stationDist d flat s
      · rw [if_pos hts] at ht2
        injection ht2 with ht2
        subst ht2
        by_cases hs : stationDist d flat s < b
        · rw [if_pos hs, ih u hfm, if_pos hts, if_pos (lt_trans hts hs)]
        · rw [if_neg hs, ih u hfm]
      · rw [if_neg hts] at ht2
        injection ht2 with ht2
        subst ht2
        by_cases hs : stationDist d flat s < b
        · rw [if_pos hs, ih u hfm, if_neg hts, if_pos hs]
        · rw [if_neg hs, ih u hfm, if_neg hs,
            if_neg (not_lt.mpr (le_trans (not_lt.mp hs) (not_lt.mp hts)))]

theorem mrtLoop_none_some (d : GCDist) (flat : Rat × Rat) (s : Station)
    (rest : List Station) (w : Station)
    (hw : firstMinStation (stationDist d flat) (s :: rest) = some w) :
    mrtLoop d flat (s :: rest) none = some (w.name, stationDist d flat w) := by
  show mrtLoop d flat rest (some (s.name, stationDist d flat s)) = _
  cases hfm : firstMinStation (stationDist d flat) rest with
  | none =>
    have hrest : rest = [] := by
      cases rest with
      | nil => rfl
      | cons a l => exact absurd hfm (firstMinStation_ne_none _ a l)
    subst hrest
    have hs : some s = some w := by
      simpa only [firstMinStation] using hw
    injection hs with hs
    subst hs
    rfl
  | some u =>
    have hw2 : (if stationDist d flat u < stationDist d flat s then some u
        else some s) = some w := by
      simpa only [firstMinStation, hfm] using hw
    rw [mrtLoop_acc_some d flat rest u hfm]
    by_cases hts : stationDist d flat u < stationDist d flat s
    · rw [if_pos hts] at hw2
      injection hw2 with hw2
      subst hw2
      rw [if_pos hts]
    · rw [if_neg hts] at hw2
      injection hw2 with hw2
      subst hw2
      rw [if_neg hts]

theorem firstMinStation_spec (ds : Station → Rat) : ∀ (ss : List Station)
    (w : Station), firstMinStation ds ss = some w →
    ∃ l1 l2, ss = l1 ++ w :: l2 ∧ (∀ t ∈ ss, ds w ≤ ds t) ∧
      ∀ t ∈ l1, ds w < ds t := by
  intro ss
  induction ss with
  | nil => intro w h; cases h
  | cons s rest ih =>
    intro w h
    cases hfm : firstMinStation ds rest with
    | none =>
      have hrest : rest = [] := by
        cases rest with
        | nil => rfl
        | cons a l => exact absurd hfm (firstMinStation_ne_none ds a l)
      subst hrest
      have hs : some s = some w := by
        simpa only [firstMinStation] using h
      injection hs with hs
      subst hs
      exact ⟨[], [], rfl, by simp, by simp⟩
    | some t =>
      have h2 : (if ds t < ds s then some t else some s) = some w := by
        simpa only [firstMinStation, hfm] using h
      rcases ih t hfm with ⟨l1, l2, heq, hall, hpre⟩
      by_cases hts : ds t < ds s
      · rw [if_pos hts] at h2
        injection h2 with h2
        subst h2
        refine ⟨s :: l1, l2, by rw [heq]; rfl, ?_, ?_⟩
        · intro u hu
          rcases List.mem_cons.mp hu with hu | hu
          · exact hu ▸ le_of_lt hts
          · exact hall u hu
        · intro u hu
          rcases List.mem_cons.mp hu with hu | hu
          · exact hu ▸ hts
          · exact hpre u hu
      · rw [if_neg hts] at h2
        injection h2 with h2
        subst h2
        refine ⟨[], rest, rfl, ?_, by simp⟩
        intro u hu
        rcases List.mem_cons.mp hu with hu | hu
        · exact hu ▸ le_refl _
        · exact le_trans (not_lt.mp hts) (hall u hu)

/-- C9 amended: given a non-empty candidate list whose first distance
minimiser has a non-empty name, `find_nearest_mrt` returns exactly that
station (name plus distance rounded to 3 decimals): it is a distance
minimiser over the whole response list, and every station strictly before
it in the response order is strictly farther (so ties keep the first
station in the response order of the service).  The non-empty-name proviso
is forced by the Python truthiness test `if nearest_mrt_name:` in the
source. -/
theorem claim9_amended (d : GCDist) (flat : Rat × Rat) (ss : List Station)
    (w : Station) (hw : firstMinStation (stationDist d flat) ss = some w)
    (hname : w.name ≠ "") :
    find_nearest_mrt d flat (.ok ss) =
      .ok (some (w.name, round3 (stationDist d flat w))) ∧
    ∃ l1 l2, ss = l1 ++ w :: l2 ∧
      (∀ t ∈ ss, stationDist d flat w ≤ stationDist d flat t) ∧
      ∀ t ∈ l1, stationDist d flat w < stationDist d flat t := by
  cases ss with
  | nil => cases hw
  | cons s rest =>
    refine ⟨?_, firstMinStation_spec _ _ w hw⟩
    show (if (s :: rest).isEmpty then Except.ok none
      else
        match mrtLoop d flat (s :: rest) none with
        | some (n, bd) =>
          if n = "" then Except.ok none else Except.ok (some (n, round3 bd))
        | none => Except.ok none) = _
    rw [if_neg (by simp), mrtLoop_none_some d flat s rest w hw]
    show (if w.name = "" then Except.ok none
      else Except.ok (some (w.name, round3 (stationDist d flat w)))) =
      Except.ok (some (w.name, round3 (stationDist d flat w)))
    rw [if_neg hname]

/-- C9 counterexample to the claim as stated: a non-empty candidate list
whose nearest station carries the empty string as its name makes
`find_nearest_mrt` return `None` (Python truthiness of
`if nearest_mrt_name:`), not the minimal-distance station. -/
theorem claim9_counterexample :
    find_nearest_mrt distZero (0, 0) (Except.ok [⟨"", 0, 0⟩]) =
      Except.ok none := rfl

/-- C9 witness: on a concrete two-station response with equal distances the
first station in response order is returned. -/
theorem claim9_witness :
    find_nearest_mrt distZero (0, 0) (Except.ok stationsW) =
      Except.ok (some ("A", round3 (stationDist distZero (0, 0) ⟨"A", 3, 4⟩))) :=
  (claim9_amended distZero (0, 0) stationsW ⟨"A", 3, 4⟩ rfl (by decide)).1

/-! ## Claim C4: geocoding retry policy -/

theorem geocodeLoop_calls_le (net : Net) (base : Rat) (addr : String) :
    ∀ l : List Nat, (geocodeLoop net base addr l).calls.length ≤ l.length := by
  intro l
  induction l with
  | nil => simp [geocodeLoop]
  | cons a rest ih =>
    show (geocodeLoop net base addr (a :: rest)).calls.length ≤ rest.length + 1
    simp only [geocodeLoop]
    cases net.geo addr a with
    | ok results =>
      cases results with
      | nil => simp
      | cons r rs => simp
    | error e =>
      by_cases hr : rest.isEmpty
      · simp [hr]
      · simp only [hr, Bool.false_eq_true, if_false, List.length_cons]
        omega

/-- C4: the geocoding client makes at most 3 attempts; when all three
attempts fail with a transport error it sleeps `base * 2 ^ attempt` after
failed attempt 0 and failed attempt 1 (strictly increasing for a positive
base delay), raises exactly one `OneMapAPIError` (a single `error` result),
which `get_location_data_from_onemap` catches and turns into `None`, and
which the orchestration loop records by incrementing `geocode_failed` while
continuing normally; an empty search result on the first attempt is
returned as a successful `None` with no retry, no delay, and no error. -/
theorem claim4_geocode_retry (d : GCDist) (net : Net) (base : Rat)
    (blk street : String) (hb : 0 < base) :
    (geocode_address net base blk street).calls.length ≤ 3 ∧
    ((∀ a, a < 3 → net.geo (blk ++ " " ++ street) a = .error ()) →
      (geocode_address net base blk street).result = .error () ∧
      (geocode_address net base blk street).delays =
        [base * 2 ^ 0, base * 2 ^ 1] ∧
      base * 2 ^ 0 < base * 2 ^ 1 ∧
      (geocode_address net base blk street).calls.length = 3 ∧
      (get_location_data_from_onemap d net base blk street).1 = none ∧
      ∀ (key : String) (c : Cache) (s : Stats),
        (fullLoop d net base [⟨blk, street, key⟩] c s).2.1.geocode_failed =
          s.geocode_failed + 1) ∧
    (net.geo (blk ++ " " ++ street) 0 = .ok [] →
      (geocode_address net base blk street).result = .ok none ∧
      (geocode_address net base blk street).delays = [] ∧
      (geocode_address net base blk street).calls.length = 1) := by
  refine ⟨geocodeLoop_calls_le net base _ [0, 1, 2], ?_, ?_⟩
  · intro hfail
    have htrace : geocode_address net base blk street =
        ⟨.error (), [base * 2 ^ 0, base * 2 ^ 1],
          [.geo (blk ++ " " ++ street) 0, .geo (blk ++ " " ++ street) 1,
            .geo (blk ++ " " ++ street) 2]⟩ := by
      unfold geocode_address
      simp only [geocodeLoop, hfail 0 (by omega), hfail 1 (by omega),
        hfail 2 (by omega)]
      rfl
    have hgld : (get_location_data_from_onemap d net base blk street).1 = none := by
      unfold get_location_data_from_onemap
      rw [htrace]
    refine ⟨by rw [htrace], by rw [htrace], ?_, by rw [htrace]; rfl, hgld, ?_⟩
    · have h1 : base * 2 ^ 0 = base := by ring
      have h2 : base * 2 ^ 1 = base * 2 := by ring
      rw [h1, h2]
      nlinarith
    · intro key c s
      simp only [fullLoop, hgld]
  · intro h0
    refine ⟨?_, ?_, ?_⟩ <;> simp [geocode_address, geocodeLoop, h0]

/-- C4 witness: with an always-failing transport, a unit base delay and a
concrete address, the client surfaces a single `OneMapAPIError`. -/
theorem claim4_witness :
    (geocode_address netFailGeo 1 "1" "X").result = Except.error () :=
  ((claim4_geocode_retry distZero netFailGeo 1 "1" "X" (by norm_num)).2.1
    (fun _ _ => rfl)).1

/-! ## Claims C1 and C7: the orchestration loops -/

theorem dedupKeepFirst_subset {α : Type} [DecidableEq α] :
    ∀ (seen l : List α) (x : α), x ∈ dedupKeepFirst seen l → x ∈ l := by
  intro seen l
  induction l generalizing seen with
  | nil => intro x hx; simp [dedupKeepFirst] at hx
  | cons a rest ih =>
    intro x hx
    simp only [dedupKeepFirst] at hx
    by_cases ha : a ∈ seen
    · rw [if_pos ha] at hx
      exact List.mem_cons_of_mem a (ih seen x hx)
    · rw [if_neg ha] at hx
      rcases List.mem_cons.mp hx with hx | hx
      · exact hx ▸ List.mem_cons_self a rest
      · exact List.mem_cons_of_mem a (ih (a :: seen) x hx)

theorem addressesWithCoords_not_processed (zt : ZTable) (processed : List String)
    (uas : List Addr) :
    ∀ e ∈ addressesWithCoords zt processed uas, e.1.key ∉ processed := by
  intro e he
  rcases List.mem_filterMap.mp he with ⟨a, _, hfa⟩
  by_cases hk : a.key ∈ processed
  · rw [if_pos hk] at hfa
    cases hfa
  · rw [if_neg hk] at hfa
    cases hz : zt a.key with
    | none =>
      rw [hz] at hfa
      cases hfa
    | some p =>
      rcases p with ⟨la, lo⟩
      rw [hz] at hfa
      injection hfa with hfa
      rw [← hfa]
      exact hk

theorem addressesWithoutCoords_not_processed (zt : ZTable)
    (processed : List String) (uas : List Addr) :
    ∀ a ∈ addressesWithoutCoords zt processed uas, a.key ∉ processed := by
  intro a ha
  have hb := (List.mem_filter.mp ha).2
  simp only [Bool.and_eq_true, decide_eq_true_eq] at hb
  exact hb.1

theorem coordsLoop_calls (d : GCDist) (net : Net) :
    ∀ (lst : List (Addr × Rat × Rat)) (c : Cache) (s : Stats),
    ∀ p ∈ (coordsLoop d net lst c s).2.2, ∃ e ∈ lst, p.1 = e.1.key := by
  intro lst
  induction lst with
  | nil => intro c s p hp; simp [coordsLoop] at hp
  | cons e rest ih =>
    rcases e with ⟨a, la, lo⟩
    intro c s p hp
    simp only [coordsLoop] at hp
    rcases List.mem_append.mp hp with hp | hp
    · rcases List.mem_map.mp hp with ⟨x, _, hx⟩
      refine ⟨(a, la, lo), List.mem_cons_self _ _, ?_⟩
      rw [← hx]
    · rcases ih _ _ p hp with ⟨e2, he2, hpe⟩
      exact ⟨e2, List.mem_cons_of_mem _ he2, hpe⟩

theorem fullLoop_calls (d : GCDist) (net : Net) (base : Rat) :
    ∀ (lst : List Addr) (c : Cache) (s : Stats),
    ∀ p ∈ (fullLoop d net base lst c s).2.2, ∃ a ∈ lst, p.1 = a.key := by
  intro lst
  induction lst with
  | nil => intro c s p hp; simp [fullLoop] at hp
  | cons a rest ih =>
    intro c s p hp
    simp only [fullLoop] at hp
    rcases List.mem_append.mp hp with hp | hp
    · rcases List.mem_map.mp hp with ⟨x, _, hx⟩
      refine ⟨a, List.mem_cons_self _ _, ?_⟩
      rw [← hx]
    · rcases ih _ _ p hp with ⟨a2, ha2, hpa⟩
      exact ⟨a2, List.mem_cons_of_mem _ ha2, hpa⟩

theorem bumpTier_saved (s : Stats) (r : Option Rat) :
    (bumpTier s r).api_calls_saved = s.api_calls_saved := by
  cases r with
  | none => rfl
  | some v =>
    simp only [bumpTier]
    by_cases h2 : v = 2
    · rw [if_pos h2]
    · rw [if_neg h2]
      by_cases h5 : v = 5
      · rw [if_pos h5]
      · rw [if_neg h5]

theorem coordsLoop_saved (d : GCDist) (net : Net) :
    ∀ (lst : List (Addr × Rat × Rat)) (c : Cache) (s : Stats),
    (coordsLoop d net lst c s).2.1.api_calls_saved = s.api_calls_saved := by
  intro lst
  induction lst with
  | nil => intro c s; rfl
  | cons e rest ih =>
    rcases e with ⟨a, la, lo⟩
    intro c s
    simp only [coordsLoop]
    rw [ih]
    rw [bumpTier_saved]

theorem fullLoop_saved (d : GCDist) (net : Net) (base : Rat) :
    ∀ (lst : List Addr) (c : Cache) (s : Stats),
    (fullLoop d net base lst c s).2.1.api_calls_saved = s.api_calls_saved := by
  intro lst
  induction lst with
  | nil => intro c s; rfl
  | cons a rest ih =>
    intro c s
    simp only [fullLoop]
    rw [ih]
    cases hr : (get_location_data_from_onemap d net base a.block a.clean_street).1 with
    | some e => simp [hr, bumpTier_saved]
    | none => simp [hr]

/-- C1: the cache short-circuit.  Every network call of a run is attributed
to the address key being processed when it was issued; no call is ever
attributed to a key already present in the loaded cache, and a run whose
loaded cache contains the key of every input record issues no network call
at all. -/
theorem claim1_cache_short_circuit (d : GCDist) (net : Net) (base : Rat)
    (zt : ZTable) (cache0 : Cache) (records : List TxRec) :
    (∀ k ∈ dictKeys cache0,
      ∀ p ∈ (enrich_with_location_data d net base zt cache0 records).calls,
        p.1 ≠ k) ∧
    ((∀ r ∈ records, txKey r ∈ dictKeys cache0) →
      (enrich_with_location_data d net base zt cache0 records).calls = []) := by
  constructor
  · intro k hk p hp
    simp only [enrich_with_location_data] at hp
    rcases List.mem_append.mp hp with hp | hp
    · rcases coordsLoop_calls d net _ _ _ p hp with ⟨e, he, hpe⟩
      have hnp := addressesWithCoords_not_processed zt (dictKeys cache0)
        (uniqueAddresses records) e he
      intro hpk
      apply hnp
      rw [← hpe, hpk]
      exact hk
    · rcases fullLoop_calls d net base _ _ _ p hp with ⟨a, ha, hpa⟩
      have hnp := addressesWithoutCoords_not_processed zt (dictKeys cache0)
        (uniqueAddresses records) a ha
      intro hpk
      apply hnp
      rw [← hpa, hpk]
      exact hk
  · intro hall
    have huas : ∀ a ∈ uniqueAddresses records, a.key ∈ dictKeys cache0 := by
      intro a ha
      have hmem := dedupKeepFirst_subset [] _ a ha
      rcases List.mem_map.mp hmem with ⟨r, hr, hra⟩
      rw [← hra]
      exact hall r hr
    have hwc : addressesWithCoords zt (dictKeys cache0)
        (uniqueAddresses records) = [] := by
      unfold addressesWithCoords
      rw [List.filterMap_eq_nil_iff]
      intro a ha
      rw [if_pos (huas a ha)]
    have hwo : addressesWithoutCoords zt (dictKeys cache0)
        (uniqueAddresses records) = [] := by
      unfold addressesWithoutCoords
      rw [List.filter_eq_nil_iff]
      intro a ha
      simp [huas a ha]
    simp only [enrich_with_location_data, hwc, hwo]
    rfl

/-- C1 witness: a concrete run whose loaded cache covers the only input
address key of the only input record issues zero network calls. -/
theorem claim1_witness :
    (enrich_with_location_data distZero netEmpty 1 ztNone cacheX txX).calls = [] :=
  (claim1_cache_short_circuit distZero netEmpty 1 ztNone cacheX txX).2
    (by decide)

/-- C7 amended: the `api_calls_saved` statistic equals the number of unique,
not-already-cached addresses found in the external coordinate table (the
geocoding calls skipped thanks to that table); it does not account for the
deduplication of transaction records. -/
theorem claim7_amended (d : GCDist) (net : Net) (base : Rat) (zt : ZTable)
    (cache0 : Cache) (records : List TxRec) :
    (enrich_with_location_data d net base zt cache0 records).stats.api_calls_saved =
      (addressesWithCoords zt (dictKeys cache0) (uniqueAddresses records)).length := by
  simp only [enrich_with_location_data]
  rw [fullLoop_saved, coordsLoop_saved]

/-- C7 counterexample to the claim as stated: three transaction records
sharing one address that is absent from the external table and needs a full
geocode + proximity lookup.  The naive baseline of the claim is one call
per transaction record (3 calls); the run makes 2 calls, so the number of
calls avoided relative to that baseline is 1, yet the reported
`api_calls_saved` is 0 — the statistic ignores the deduplication savings. -/
theorem claim7_counterexample :
    (enrich_with_location_data distZero netOneHit 1 ztNone [] txThree).stats.api_calls_saved ≠
      txThree.length -
        (enrich_with_location_data distZero netOneHit 1 ztNone [] txThree).calls.length := by
  decide

/-! ## Claim C2: the normaliser is idempotent -/

/-- C2: `normalise_street_name` is idempotent on every input string, and on
the concrete example `"123 ANG MO KIO AVE 3"` it yields
`"123 ANG MO KIO AVENUE 3"`, which it returns unchanged. -/
theorem claim2_normaliser_idempotent :
    (∀ s : String, normalise_street_name (normalise_street_name s) =
      normalise_street_name s) ∧
    normalise_street_name "123 ANG MO KIO AVE 3" = "123 ANG MO KIO AVENUE 3" ∧
    normalise_street_name "123 ANG MO KIO AVENUE 3" =
      "123 ANG MO KIO AVENUE 3" :=
  ⟨fun s => congrArg String.mk (normaliseChars_idem s.data), by decide, by decide⟩

/-! ## Claim C5: every run completes with one output row per input row -/

/-- C5 evaluation at the failing input: one input record, an empty loaded
cache, an address absent from the external coordinate table, and a geocoder
whose transport always fails.  The address is counted as a geocode failure,
the final cache is empty, so the source skips the merge branch
(`final_df = df`, which lacks the `dist_mrt_km` / `search_radius_km`
columns) and the unconditional MRT-coverage statistics block then raises
`KeyError`: the run does not complete and produces no output records at
all, contradicting the claim. -/
theorem claim5_crash_without_resolved_data :
    (enrich_with_location_data distZero netFailGeo 1 ztNone [] txX).outcome =
      Except.error () ∧
    (enrich_with_location_data distZero netFailGeo 1 ztNone [] txX).stats.geocode_failed = 1 ∧
    (enrich_with_location_data distZero netFailGeo 1 ztNone [] txX).stats.total_processed = 1 :=
  ⟨rfl, rfl, rfl⟩
